/-
Verification of the Imperfecto repository's equilibrium-computation core:
the regret-matching strategy rule, the example games' payoff functions,
the normal-form regret-matching trainer, and the CFR recursion.

Numeric values (numpy float arrays in the source) are embedded as rationals
(ℚ); vectors as `List ℚ`; per-infostate dictionaries as `String → Option
(List ℚ)` maps; actions as their integer enum values.
-/
import Mathlib

namespace Imperfecto

/-- Embeds `RegretMatchingPlayer.regret_matching_strategy`
(src/imperfecto/algos/regret_matching.py, lines 55-70):
`action_probs = np.where(regrets > 0, regrets, 0)`; if the sum of
`action_probs` is positive, normalize by the sum, else return the uniform
distribution `np.ones(len) / len`. -/
def regret_matching_strategy (regrets : List ℚ) : List ℚ :=
  let action_probs := regrets.map (fun r => if 0 < r then r else 0)
  if 0 < action_probs.sum then
    action_probs.map (fun x => x / action_probs.sum)
  else
    List.replicate regrets.length ((regrets.length : ℚ))⁻¹

example : regret_matching_strategy [0, 0, 0] = [1/3, 1/3, 1/3] := by
  norm_num [regret_matching_strategy, List.replicate]
example : regret_matching_strategy [3, -1, 1] = [3/4, 0, 1/4] := by
  norm_num [regret_matching_strategy]

/-- The positive part of a regret vector (the `np.where(regrets > 0, regrets, 0)`
intermediate of `regret_matching_strategy`). -/
def positive_part (regrets : List ℚ) : List ℚ :=
  regrets.map (fun r => if 0 < r then r else 0)

lemma positive_part_nonneg (regrets : List ℚ) :
    ∀ x ∈ positive_part regrets, 0 ≤ x := by
  intro x hx
  simp only [positive_part, List.mem_map] at hx
  obtain ⟨r, _, rfl⟩ := hx
  split <;> [exact le_of_lt (by assumption); exact le_refl 0]

lemma positive_part_sum_pos {regrets : List ℚ} {r : ℚ}
    (hr : r ∈ regrets) (hpos : 0 < r) : 0 < (positive_part regrets).sum := by
  have hmem : r ∈ positive_part regrets := by
    have : (if 0 < r then r else 0) = r := if_pos hpos
    simpa [positive_part, this] using List.mem_map_of_mem (fun r => if 0 < r then r else 0) hr
  exact lt_of_lt_of_le hpos
    (List.single_le_sum (positive_part_nonneg regrets) r hmem)

lemma sum_map_div (l : List ℚ) (s : ℚ) : (l.map (fun x => x / s)).sum = l.sum / s := by
  induction l with
  | nil => simp
  | cons a t ih => simp [ih, add_div]

lemma regret_matching_strategy_eq (regrets : List ℚ) :
    regret_matching_strategy regrets =
      if 0 < (positive_part regrets).sum then
        (positive_part regrets).map (fun x => x / (positive_part regrets).sum)
      else
        List.replicate regrets.length ((regrets.length : ℚ))⁻¹ := rfl

lemma positive_part_sum_zero {regrets : List ℚ} (hall : ∀ r ∈ regrets, r ≤ 0) :
    (positive_part regrets).sum = 0 := by
  apply List.sum_eq_zero
  intro x hx
  simp only [positive_part, List.mem_map] at hx
  obtain ⟨r, hr, rfl⟩ := hx
  exact if_neg (not_lt.2 (hall r hr))

/-- C4: `regret_matching_strategy` returns a nonnegative vector summing to 1;
with at least one positive regret the result is the positive part normalized
by the sum of positive entries; with all regrets nonpositive it is the
uniform distribution. (Cumulative-regret vectors always have length equal to
the game's number of actions, which is positive.) -/
theorem regret_matching_strategy_spec (regrets : List ℚ) (hlen : 0 < regrets.length) :
    (∀ x ∈ regret_matching_strategy regrets, 0 ≤ x) ∧
    (regret_matching_strategy regrets).sum = 1 ∧
    ((∃ r ∈ regrets, 0 < r) →
      regret_matching_strategy regrets =
        (positive_part regrets).map (fun x => x / (positive_part regrets).sum)) ∧
    ((∀ r ∈ regrets, r ≤ 0) →
      regret_matching_strategy regrets =
        List.replicate regrets.length ((regrets.length : ℚ))⁻¹) := by
  have hn : (regrets.length : ℚ) ≠ 0 := Nat.cast_ne_zero.2 hlen.ne'
  rw [regret_matching_strategy_eq]
  by_cases hpos : 0 < (positive_part regrets).sum
  · rw [if_pos hpos]
    refine ⟨?_, ?_, fun _ => rfl, fun hall => absurd hpos (by simp [positive_part_sum_zero hall])⟩
    · intro x hx
      simp only [List.mem_map] at hx
      obtain ⟨y, hy, rfl⟩ := hx
      exact div_nonneg (positive_part_nonneg regrets y hy) hpos.le
    · rw [sum_map_div, div_self hpos.ne']
  · rw [if_neg hpos]
    refine ⟨?_, ?_, ?_, fun _ => rfl⟩
    · intro x hx
      rw [List.eq_of_mem_replicate hx]
      positivity
    · rw [List.sum_replicate, nsmul_eq_mul, mul_inv_cancel₀ hn]
    · rintro ⟨r, hr, hrpos⟩
      exact absurd (positive_part_sum_pos hr hrpos) hpos

/-- C4 witness at the concrete input `[2, -1, 2]`. -/
theorem regret_matching_strategy_spec_witness :
    (regret_matching_strategy [2, -1, 2]).sum = 1 :=
  (regret_matching_strategy_spec [2, -1, 2] (by simp)).2.1

/-! ### Game payoff functions

Python exceptions are embedded as `Except.error`: the `assert
self.is_terminal(history)` guard fails with `"AssertionError"`, an explicit
`raise ...("Invalid history ...")` with `"Invalid history"`. Actions are
embedded by their integer enum values. -/

/-- Embeds `RockPaperScissorGame.get_payoffs`
(src/imperfect_info_games/games/rock_paper_scissor.py, lines 50-66).
Actions: ROCK = 0, PAPER = 1, SCISSOR = 2. `is_terminal` is length = 2.
The `match` covers the six decisive strings; the function ends with a plain
`return [0, 0]` for everything else. -/
def RockPaperScissor.get_payoffs (history : List Nat) : Except String (List ℚ) :=
  if history.length = 2 then
    match history with
    | [0, 1] => .ok [-1, 1]
    | [0, 2] => .ok [1, -1]
    | [1, 0] => .ok [1, -1]
    | [1, 2] => .ok [-1, 1]
    | [2, 0] => .ok [-1, 1]
    | [2, 1] => .ok [1, -1]
    | _ => .ok [0, 0]
  else .error "AssertionError"

/-- Embeds `PrisonerDilemmaGame.get_payoffs`
(src/imperfecto/games/prisoner_dilemma.py, lines 42-56).
Actions: SNITCH = 0, SILENCE = 1. `is_terminal` is length = 2 (inherited
from `NormalFormGame`). The default `case _` raises `ValueError("Invalid
history ...")`. -/
def PrisonerDilemma.get_payoffs (history : List Nat) : Except String (List ℚ) :=
  if history.length = 2 then
    match history with
    | [0, 0] => .ok [-2, -2]
    | [1, 1] => .ok [-1, -1]
    | [1, 0] => .ok [-3, 0]
    | [0, 1] => .ok [0, -3]
    | _ => .error "Invalid history"
  else .error "AssertionError"

/-- Embeds `KuhnPokerGame.is_terminal` (src/imperfecto/games/kuhn_poker.py,
lines 96-100): the history without its leading chance action must be one of
PASS-PASS, BET-BET, BET-PASS, PASS-BET-PASS, PASS-BET-BET (PASS = 0, BET = 1). -/
def KuhnPoker.is_terminal (history : List Nat) : Bool :=
  let t := history.drop 1
  t = [0, 0] || t = [1, 1] || t = [1, 0] || t = [0, 1, 0] || t = [0, 1, 1]

/-- Embeds `KuhnPokerGame.showdown` together with `get_winner`
(src/imperfecto/games/kuhn_poker.py, lines 105-132): chance actions
JQ = 0, JK = 1, QK = 2 make player 1 the winner (`[-1, 1]`);
QJ = 3, KJ = 4, KQ = 5 make player 0 the winner (`[1, -1]`). -/
def KuhnPoker.showdown (history : List Nat) : List ℚ :=
  if history.headD 0 < 3 then [-1, 1] else [1, -1]

/-- Embeds `KuhnPokerGame.get_payoffs` (src/imperfecto/games/kuhn_poker.py,
lines 134-147): assert terminal, then match on the history string past the
chance action; the trailing `raise Exception("Invalid history")` is the
default. -/
def KuhnPoker.get_payoffs (history : List Nat) : Except String (List ℚ) :=
  if KuhnPoker.is_terminal history then
    match history.drop 1 with
    | [0, 0] => .ok (KuhnPoker.showdown history)
    | [1, 1] => .ok ((KuhnPoker.showdown history).map (fun x => 2 * x))
    | [1, 0] => .ok [1, -1]
    | [0, 1, 0] => .ok [-1, 1]
    | [0, 1, 1] => .ok ((KuhnPoker.showdown history).map (fun x => 2 * x))
    | _ => .error "Invalid history"
  else .error "AssertionError"

/-- C7 counterexample: `RockPaperScissorGame.get_payoffs` on the terminal
history ROCK-ROCK — which is not covered by its match table — silently
returns the default payoff vector `[0, 0]` instead of failing with an
"invalid history" error. -/
theorem rps_uncovered_history_silent_default :
    RockPaperScissor.get_payoffs [0, 0] = Except.ok [0, 0] := rfl

/-- C7 (amended): `PrisonerDilemmaGame.get_payoffs` fails with an explicit
"Invalid history" error on every terminal (length-2) history not covered by
its payoff table; `KuhnPokerGame.get_payoffs` covers every terminal history,
so its "Invalid history" raise is unreachable; but
`RockPaperScissorGame.get_payoffs` silently returns the default `[0, 0]`
on its three uncovered (tie) terminal histories. -/
theorem uncovered_payoff_lookup (h : List Nat) (hlen : h.length = 2)
    (h1 : h ≠ [0, 0]) (h2 : h ≠ [1, 1]) (h3 : h ≠ [1, 0]) (h4 : h ≠ [0, 1]) :
    PrisonerDilemma.get_payoffs h = Except.error "Invalid history" ∧
    (∀ h' : List Nat, KuhnPoker.is_terminal h' = true →
      ∃ v, KuhnPoker.get_payoffs h' = Except.ok v) ∧
    RockPaperScissor.get_payoffs [0, 0] = Except.ok [0, 0] ∧
    RockPaperScissor.get_payoffs [1, 1] = Except.ok [0, 0] ∧
    RockPaperScissor.get_payoffs [2, 2] = Except.ok [0, 0] := by
  refine ⟨?_, ?_, rfl, rfl, rfl⟩
  · obtain ⟨a, b, rfl⟩ := List.length_eq_two.1 hlen
    unfold PrisonerDilemma.get_payoffs
    rw [if_pos (by simp)]
    split <;> simp_all
  · intro h' ht
    unfold KuhnPoker.get_payoffs
    rw [if_pos ht]
    simp only [KuhnPoker.is_terminal, decide_eq_true_eq, Bool.or_eq_true] at ht
    rcases ht with ((((ht | ht) | ht) | ht) | ht) <;> rw [ht] <;> exact ⟨_, rfl⟩

/-- C7 witness at the concrete input SNITCH followed by a foreign action
value 5 (a length-2 history not covered by the prisoner-dilemma table). -/
theorem uncovered_payoff_lookup_witness :
    PrisonerDilemma.get_payoffs [0, 5] = Except.error "Invalid history" :=
  (uncovered_payoff_lookup [0, 5] (by decide) (by decide) (by decide)
    (by decide) (by decide)).1

/-- C8: for each embedded game, `get_payoffs` on a terminal history over the
game's action alphabet returns a payoff vector of length `n_players` (= 2),
and `get_payoffs` on a non-terminal history fails with the assertion error
raised by `assert self.is_terminal(history)`. -/
theorem get_payoffs_length_and_terminal_guard (h : List Nat) :
    ((∀ a ∈ h, a < 2) → h.length = 2 →
      ∃ v, PrisonerDilemma.get_payoffs h = Except.ok v ∧ v.length = 2) ∧
    (h.length ≠ 2 → PrisonerDilemma.get_payoffs h = Except.error "AssertionError") ∧
    (KuhnPoker.is_terminal h = true →
      ∃ v, KuhnPoker.get_payoffs h = Except.ok v ∧ v.length = 2) ∧
    (KuhnPoker.is_terminal h = false →
      KuhnPoker.get_payoffs h = Except.error "AssertionError") ∧
    ((∀ a ∈ h, a < 3) → h.length = 2 →
      ∃ v, RockPaperScissor.get_payoffs h = Except.ok v ∧ v.length = 2) ∧
    (h.length ≠ 2 → RockPaperScissor.get_payoffs h = Except.error "AssertionError") := by
  refine ⟨?_, ?_, ?_, ?_, ?_, ?_⟩
  · intro halph hlen
    obtain ⟨a, b, rfl⟩ := List.length_eq_two.1 hlen
    have ha : a < 2 := halph a (by simp)
    have hb : b < 2 := halph b (by simp)
    unfold PrisonerDilemma.get_payoffs
    rw [if_pos (by simp)]
    interval_cases a <;> interval_cases b <;> exact ⟨_, rfl, rfl⟩
  · intro hlen
    unfold PrisonerDilemma.get_payoffs
    rw [if_neg hlen]
  · intro ht
    unfold KuhnPoker.get_payoffs
    rw [if_pos ht]
    simp only [KuhnPoker.is_terminal, decide_eq_true_eq, Bool.or_eq_true] at ht
    have hshow : (KuhnPoker.showdown h).length = 2 := by
      unfold KuhnPoker.showdown; split <;> rfl
    rcases ht with ((((ht | ht) | ht) | ht) | ht) <;> rw [ht] <;>
      exact ⟨_, rfl, by simp [hshow]⟩
  · intro ht
    unfold KuhnPoker.get_payoffs
    rw [ht]
    rfl
  · intro halph hlen
    obtain ⟨a, b, rfl⟩ := List.length_eq_two.1 hlen
    have ha : a < 3 := halph a (by simp)
    have hb : b < 3 := halph b (by simp)
    unfold RockPaperScissor.get_payoffs
    rw [if_pos (by simp)]
    interval_cases a <;> interval_cases b <;> exact ⟨_, rfl, rfl⟩
  · intro hlen
    unfold RockPaperScissor.get_payoffs
    rw [if_neg hlen]

/-- C8 witness: terminal histories SNITCH-SILENCE, QJ:PASS-BET-PASS and
PAPER-SCISSOR return length-2 payoff vectors; the non-terminal empty
history fails the terminality assertion. -/
theorem get_payoffs_length_and_terminal_guard_witness :
    (∃ v, PrisonerDilemma.get_payoffs [0, 1] = Except.ok v ∧ v.length = 2) ∧
    (∃ v, KuhnPoker.get_payoffs [3, 0, 1, 0] = Except.ok v ∧ v.length = 2) ∧
    KuhnPoker.get_payoffs [] = Except.error "AssertionError" ∧
    (∃ v, RockPaperScissor.get_payoffs [1, 2] = Except.ok v ∧ v.length = 2) ∧
    PrisonerDilemma.get_payoffs [] = Except.error "AssertionError" :=
  ⟨(get_payoffs_length_and_terminal_guard [0, 1]).1 (by decide) (by decide),
   (get_payoffs_length_and_terminal_guard [3, 0, 1, 0]).2.2.1 (by decide),
   (get_payoffs_length_and_terminal_guard []).2.2.2.1 (by decide),
   (get_payoffs_length_and_terminal_guard [1, 2]).2.2.2.2.1 (by decide) (by decide),
   (get_payoffs_length_and_terminal_guard []).2.1 (by decide)⟩

/-! ### Player action sampling -/

/-- Pointwise update of a per-infostate dictionary (python
`d[key] = value`). -/
def setEntry (m : String → Option (List ℚ)) (k : String) (v : List ℚ) :
    String → Option (List ℚ) :=
  fun s => if s = k then some v else m s

/-- Embeds `Player.act` (src/imperfecto/algos/player.py, lines 41-55):
if the infostate is not in the strategy dict, insert the uniform
distribution `np.ones(n) / n`; then sample from `self.strategy[infostate]`
via `get_action`. `choice` stands for `get_action`'s random draw. The
result is the sampled action together with the strategy dict after the
call. -/
def Player.act (n_actions : Nat) (choice : List ℚ → Nat)
    (strategy : String → Option (List ℚ)) (infostate : String) :
    Nat × (String → Option (List ℚ)) :=
  let strategy' :=
    if (strategy infostate).isNone then
      setEntry strategy infostate (List.replicate n_actions ((n_actions : ℚ))⁻¹)
    else strategy
  (choice ((strategy' infostate).getD []), strategy')

/-- C10: on an unseen infostate, `act` first stores the uniform
distribution in the strategy dict (a visible mutation) and samples from
that uniform distribution; on a stored infostate it samples from the stored
distribution and leaves the dict unchanged. -/
theorem player_act_spec (n_actions : Nat) (choice : List ℚ → Nat)
    (strategy : String → Option (List ℚ)) (infostate : String) :
    (strategy infostate = none →
      Player.act n_actions choice strategy infostate =
        (choice (List.replicate n_actions ((n_actions : ℚ))⁻¹),
         setEntry strategy infostate (List.replicate n_actions ((n_actions : ℚ))⁻¹))) ∧
    (∀ d, strategy infostate = some d →
      Player.act n_actions choice strategy infostate = (choice d, strategy)) := by
  constructor
  · intro hnone
    simp [Player.act, hnone, setEntry]
  · intro d hd
    simp [Player.act, hd]

/-- C10 witness: a fresh strategy dict at infostate "P0" with two actions,
and a dict that already stores `[1, 0]` there. -/
theorem player_act_spec_witness :
    Player.act 2 (fun _ => 0) (fun _ => none) "P0" =
      (0, setEntry (fun _ => none) "P0" (List.replicate 2 ((2 : ℚ))⁻¹)) ∧
    Player.act 2 (fun _ => 0) (fun _ => some [1, 0]) "P0" =
      (0, fun _ => some [1, 0]) :=
  ⟨(player_act_spec 2 (fun _ => 0) (fun _ => none) "P0").1 rfl,
   (player_act_spec 2 (fun _ => 0) (fun _ => some [1, 0]) "P0").2 [1, 0] rfl⟩

/-! ### Normal-form regret-matching update and trainer -/

/-- Embeds the counterfactual-reward computation of
`RegretMatchingPlayer.update_strategy`
(src/imperfecto/algos/regret_matching.py, lines 85-93): for every own
action `a`, the payoff of the history with the player's realized action
replaced by `a`, all other players' actions kept. `payoffs` stands for
`self.game.get_payoffs` on the terminal histories involved. -/
def RegretMatching.counterfactual_rewards (payoffs : List Nat → List ℚ)
    (n_actions : Nat) (history : List Nat) (player_id : Nat) : List ℚ :=
  (List.range n_actions).map (fun a =>
    (payoffs (history.set player_id a)).getD player_id 0)

/-- Embeds `RegretMatchingPlayer.update_strategy`
(src/imperfecto/algos/regret_matching.py, lines 76-96):
`cum_regrets += counterfactual_rewards - counterfactual_rewards[my_action]`
where `my_action = history[player_id]`. Returns the new cumulative-regret
vector. -/
def RegretMatching.update_strategy (payoffs : List Nat → List ℚ) (n_actions : Nat)
    (cum_regrets : List ℚ) (history : List Nat) (player_id : Nat) : List ℚ :=
  let my_action := history.getD player_id 0
  let cf := RegretMatching.counterfactual_rewards payoffs n_actions history player_id
  List.zipWith (· + ·) cum_regrets (cf.map (fun r => r - cf.getD my_action 0))

lemma getD_map_range (f : Nat → ℚ) (n a : Nat) (h : a < n) :
    ((List.range n).map f).getD a 0 = f a := by
  rw [List.getD_eq_getElem?_getD, List.getElem?_map, List.getElem?_range h]
  rfl

lemma getD_zipWith_add (l1 l2 : List ℚ) (a : Nat) (h1 : a < l1.length) (h2 : a < l2.length) :
    (List.zipWith (· + ·) l1 l2).getD a 0 = l1.getD a 0 + l2.getD a 0 := by
  induction l1 generalizing l2 a with
  | nil => simp at h1
  | cons x t ih =>
    cases l2 with
    | nil => simp at h2
    | cons y t2 =>
      cases a with
      | zero => rfl
      | succ a =>
        simp only [List.length_cons, Nat.succ_lt_succ_iff] at h1 h2
        simpa using ih t2 a h1 h2

lemma getD_map_sub (l : List ℚ) (c : ℚ) (a : Nat) (h : a < l.length) :
    (l.map (fun r => r - c)).getD a 0 = l.getD a 0 - c := by
  rw [List.getD_eq_getElem?_getD, List.getElem?_map,
    List.getElem?_eq_getElem h]
  rw [List.getD_eq_getElem?_getD, List.getElem?_eq_getElem h]
  rfl

/-- C5: the counterfactual reward vector substitutes each own action while
holding every other player's realized action fixed, and the cumulative
regret vector is incremented entrywise by exactly
`counterfactual_rewards - counterfactual_rewards[action_actually_taken]`,
so the entry of the action actually taken gets a zero increment. -/
theorem regret_matching_update_spec (payoffs : List Nat → List ℚ) (n_actions : Nat)
    (cum_regrets : List ℚ) (history : List Nat) (player_id : Nat)
    (hcum : cum_regrets.length = n_actions)
    (hact : history.getD player_id 0 < n_actions) :
    (∀ a, a < n_actions →
      (RegretMatching.counterfactual_rewards payoffs n_actions history player_id).getD a 0 =
        (payoffs (history.set player_id a)).getD player_id 0) ∧
    (∀ a i, i ≠ player_id → (history.set player_id a).getD i 0 = history.getD i 0) ∧
    (∀ a, a < n_actions →
      (RegretMatching.update_strategy payoffs n_actions cum_regrets history player_id).getD a 0 =
        cum_regrets.getD a 0 +
          ((RegretMatching.counterfactual_rewards payoffs n_actions history player_id).getD a 0 -
           (RegretMatching.counterfactual_rewards payoffs n_actions history
              player_id).getD (history.getD player_id 0) 0)) ∧
    (RegretMatching.update_strategy payoffs n_actions cum_regrets history
        player_id).getD (history.getD player_id 0) 0 =
      cum_regrets.getD (history.getD player_id 0) 0 := by
  have hcf_len : (RegretMatching.counterfactual_rewards payoffs n_actions
      history player_id).length = n_actions := by
    simp [RegretMatching.counterfactual_rewards]
  have hmain : ∀ a, a < n_actions →
      (RegretMatching.update_strategy payoffs n_actions cum_regrets history player_id).getD a 0 =
        cum_regrets.getD a 0 +
          ((RegretMatching.counterfactual_rewards payoffs n_actions history player_id).getD a 0 -
           (RegretMatching.counterfactual_rewards payoffs n_actions history
              player_id).getD (history.getD player_id 0) 0) := by
    intro a ha
    unfold RegretMatching.update_strategy
    rw [getD_zipWith_add _ _ a (by rw [hcum]; exact ha)
      (by rw [List.length_map, hcf_len]; exact ha)]
    rw [getD_map_sub _ _ a (by rw [hcf_len]; exact ha)]
  refine ⟨?_, ?_, hmain, ?_⟩
  · intro a ha
    exact getD_map_range _ n_actions a ha
  · intro a i hne
    rcases lt_or_ge i history.length with hi | hi
    · rw [List.getD_eq_getElem?_getD, List.getD_eq_getElem?_getD,
        List.getElem?_set_ne (Ne.symm hne)]
    · rw [List.getD_eq_getElem?_getD, List.getD_eq_getElem?_getD,
        List.getElem?_eq_none (by simpa using hi),
        List.getElem?_eq_none (by exact hi)]
  · rw [hmain (history.getD player_id 0) hact]
    ring

/-- C5 witness: prisoner-dilemma-style payoffs, realized history
SNITCH-SILENCE, player 0, zero initial regrets: the SNITCH entry (the
action actually taken) receives a zero increment. -/
theorem regret_matching_update_spec_witness :
    (RegretMatching.update_strategy
        (fun h => if h = [0, 1] then [0, -3] else if h = [1, 1] then [-1, -1] else [0, 0])
        2 [0, 0] [0, 1] 0).getD (([0, 1] : List Nat).getD 0 0) 0 =
      ([0, 0] : List ℚ).getD (([0, 1] : List Nat).getD 0 0) 0 :=
  (regret_matching_update_spec
    (fun h => if h = [0, 1] then [0, -3] else if h = [1, 1] then [-1, -1] else [0, 0])
    2 [0, 0] [0, 1] 0 (by decide) (by decide)).2.2.2

/-- Embeds one iteration of the player-update loop of
`NormalFormTrainer.train` (src/imperfecto/misc/trainer.py, lines 65-78):
after one game with outcome `history`, every player whose id is not frozen
(python: `player not in freeze_ls`) runs `update_strategy(history,
player_id)`; frozen players skip it. Player state is the list of the
players' cumulative-regret vectors (the only learning state a
`RegretMatchingPlayer` owns). -/
def NormalFormTrainer.step (payoffs : List Nat → List ℚ) (n_actions : Nat)
    (frozen : Nat → Bool) (history : List Nat) (regrets : List (List ℚ)) :
    List (List ℚ) :=
  regrets.mapIdx (fun pid cum =>
    if frozen pid then cum
    else RegretMatching.update_strategy payoffs n_actions cum history pid)

/-- Embeds `NormalFormTrainer.train(freeze_ls)`
(src/imperfecto/misc/trainer.py, lines 50-78) on the players' learning
state: one `step` per iteration, with the per-iteration game outcomes
(the results of `self.game.play()`, randomness pre-sampled) supplied as
`histories`. -/
def NormalFormTrainer.train (payoffs : List Nat → List ℚ) (n_actions : Nat)
    (frozen : Nat → Bool) (histories : List (List Nat))
    (regrets : List (List ℚ)) : List (List ℚ) :=
  histories.foldl
    (fun st h => NormalFormTrainer.step payoffs n_actions frozen h st) regrets

lemma step_getElem? (payoffs : List Nat → List ℚ) (n_actions : Nat)
    (frozen : Nat → Bool) (history : List Nat) (regrets : List (List ℚ)) (pid : Nat) :
    (NormalFormTrainer.step payoffs n_actions frozen history regrets).get? pid =
      (regrets.get? pid).map (fun cum =>
        if frozen pid then cum
        else RegretMatching.update_strategy payoffs n_actions cum history pid) := by
  unfold NormalFormTrainer.step
  rcases lt_or_ge pid regrets.length with hp | hp
  · rw [List.get?_eq_get (by simpa [List.length_mapIdx] using hp), List.get?_eq_get hp]
    simp [List.get_mapIdx]
  · rw [List.get?_eq_none.2 (by simpa [List.length_mapIdx] using hp),
      List.get?_eq_none.2 hp]
    rfl

/-- C9: a player in the freeze list keeps its cumulative-regret vector —
its entire learning state — unchanged through a whole `train(freeze_ls)`
call (its update step is skipped on every iteration), while a non-frozen
player is updated by `update_strategy` on each iteration. -/
theorem trainer_freeze_spec (payoffs : List Nat → List ℚ) (n_actions : Nat)
    (frozen : Nat → Bool) (histories : List (List Nat))
    (regrets : List (List ℚ)) (pid : Nat) (hfrozen : frozen pid = true) :
    (NormalFormTrainer.train payoffs n_actions frozen histories regrets).get? pid =
      regrets.get? pid ∧
    (∀ pid' h st, frozen pid' = false →
      (NormalFormTrainer.step payoffs n_actions frozen h st).get? pid' =
        (st.get? pid').map
          (fun cum => RegretMatching.update_strategy payoffs n_actions cum h pid')) := by
  constructor
  · induction histories generalizing regrets with
    | nil => rfl
    | cons h t ih =>
      unfold NormalFormTrainer.train
      rw [List.foldl_cons]
      rw [show List.foldl
            (fun st h => NormalFormTrainer.step payoffs n_actions frozen h st) _ t =
          NormalFormTrainer.train payoffs n_actions frozen t
            (NormalFormTrainer.step payoffs n_actions frozen h regrets) from rfl]
      rw [ih (NormalFormTrainer.step payoffs n_actions frozen h regrets)]
      rw [step_getElem?, hfrozen]
      simp
  · intro pid' h st hnf
    rw [step_getElem?, hnf]
    simp

/-- C9 witness: two players with player 1 frozen, two iterations of
rock-paper-scissor-style outcomes: player 1's regret vector stays `[0, 0, 0]`. -/
theorem trainer_freeze_spec_witness :
    (NormalFormTrainer.train (fun _ => [1, -1]) 3 (fun pid => pid == 1)
        [[0, 1], [2, 1]] [[0, 0, 0], [0, 0, 0]]).get? 1 =
      ([[0, 0, 0], [0, 0, 0]] : List (List ℚ)).get? 1 :=
  (trainer_freeze_spec (fun _ => [1, -1]) 3 (fun pid => pid == 1)
    [[0, 1], [2, 1]] [[0, 0, 0], [0, 0, 0]] 1 (by decide)).1

/-! ### CFR engine

Embeds `counterfactualRegretMinimizerTrainer.cfr`
(src/imperfecto/algos/cfr.py, lines 97-166) and
`CounterFactualRegretMinimizerPlayer` (lines 31-58). The recursion is
given a fuel parameter standing for the (finite) depth of the game tree;
a positive fuel never runs out on the games the trainer drives. -/

/-- The per-infostate dictionaries owned by a
`CounterFactualRegretMinimizerPlayer` (src/imperfecto/algos/cfr.py,
lines 46-51). -/
structure CFRPlayer where
  cum_regrets : String → Option (List ℚ)
  strategy_sum : String → Option (List ℚ)
  strategy : String → Option (List ℚ)

/-- The joint state of the game's players, indexed by `player_id`. -/
def CFRState := Nat → CFRPlayer

/-- The game operations consumed by the CFR recursion (the
`ExtensiveFormGame` contract). Actions are the integer enum values
`0 .. n_actions - 1`; `get_payoffs` is the payoff vector on the terminal
histories the recursion reaches. -/
structure GameSpec where
  n_players : Nat
  n_actions : Nat
  is_terminal : List Nat → Bool
  get_payoffs : List Nat → List ℚ
  get_active_player : List Nat → Nat
  get_infostate : List Nat → String

/-- Lines 118-126 of cfr.py: lazily create zero vectors of length
`n_actions` for an unseen infostate in `cum_regrets` and `strategy`. -/
def lazyInit (n_actions : Nat) (infostate : String) (pl : CFRPlayer) : CFRPlayer :=
  let pl1 :=
    if (pl.cum_regrets infostate).isNone then
      { pl with cum_regrets :=
          setEntry pl.cum_regrets infostate (List.replicate n_actions 0) }
    else pl
  if (pl1.strategy infostate).isNone then
    { pl1 with strategy :=
        setEntry pl1.strategy infostate (List.replicate n_actions 0) }
  else pl1

/-- `cur_policy = active_player.strategy[infostate]` after the lazy
initialization (line 126 of cfr.py). -/
def cfrCurPolicy (g : GameSpec) (history : List Nat) (st : CFRState) : List ℚ :=
  ((lazyInit g.n_actions (g.get_infostate history)
      (st (g.get_active_player history))).strategy (g.get_infostate history)).getD []

/-- The joint state after the lazy initialization at the current node. -/
def cfrInitState (g : GameSpec) (history : List Nat) (st : CFRState) : CFRState :=
  fun p =>
    if p = g.get_active_player history then
      lazyInit g.n_actions (g.get_infostate history) (st (g.get_active_player history))
    else st p

/-- Lines 132-136 of cfr.py: recurse into every child `history + [action]`
with the active player's reach probability multiplied by
`cur_policy[action]`, threading the mutable player state through the loop
and collecting each returned utility vector as a column of the
counterfactual-value matrix (column `a` is `counterfactual_values[:, a]`). -/
def cfrChildren (n_actions : Nat)
    (rec : List Nat → List ℚ → CFRState → List ℚ × CFRState)
    (history : List Nat) (reach_probs : List ℚ) (ap : Nat) (cur_policy : List ℚ)
    (st : CFRState) : (Nat → List ℚ) × CFRState :=
  (List.range n_actions).foldl
    (fun acc a =>
      let new_reach := reach_probs.set ap (reach_probs.getD ap 0 * cur_policy.getD a 0)
      let r := rec (history ++ [a]) new_reach acc.2
      (fun a2 => if a2 = a then r.1 else acc.1 a2, r.2))
    (fun _ => [], st)

/-- Lines 138-140 of cfr.py: `node_utils[p] = cur_policy @
counterfactual_values[p, :]` for every player `p`. -/
def nodeUtils (n_players n_actions : Nat) (cur_policy : List ℚ)
    (cfv : Nat → List ℚ) : List ℚ :=
  (List.range n_players).map (fun p =>
    ((List.range n_actions).map (fun a => cur_policy.getD a 0 * (cfv a).getD p 0)).sum)

/-- Lines 144-146 of cfr.py:
`discount = np.prod(reach_probs[:ap]) * np.prod(reach_probs[ap+1:])`. -/
def counterfactualDiscount (reach_probs : List ℚ) (ap : Nat) : ℚ :=
  (reach_probs.take ap).prod * (reach_probs.drop (ap + 1)).prod

/-- Lines 147-148 of cfr.py: `regrets = (counterfactual_values[ap, :] -
node_utils[ap]) * discount`. -/
def regretsVec (n_actions : Nat) (cfv : Nat → List ℚ) (node_util_ap d : ℚ)
    (ap : Nat) : List ℚ :=
  (List.range n_actions).map (fun a => ((cfv a).getD ap 0 - node_util_ap) * d)

/-- Lines 150-158 of cfr.py applied to the active player after the children
have been visited: `cum_regrets[infostate] += regrets`, then
`update_strategy` re-syncs `strategy[infostate]` to
`regret_matching_strategy(cum_regrets[infostate])` (lines 53-58 of cfr.py),
then `strategy_sum[infostate]` is lazily zero-initialized and incremented by
`reach_probs[ap] * cur_policy`. -/
def cfrUpdatedPlayer (g : GameSpec) (infostate : String) (reach_probs : List ℚ)
    (ap : Nat) (cur_policy regrets : List ℚ) (pl2 : CFRPlayer) : CFRPlayer :=
  let new_cum := List.zipWith (· + ·) ((pl2.cum_regrets infostate).getD []) regrets
  let pl3 := { pl2 with cum_regrets := setEntry pl2.cum_regrets infostate new_cum }
  let pl4 := { pl3 with strategy := setEntry pl3.strategy infostate (regret_matching_strategy new_cum) }
  let pl5 :=
    if (pl4.strategy_sum infostate).isNone then
      { pl4 with strategy_sum :=
          setEntry pl4.strategy_sum infostate (List.replicate g.n_actions 0) }
    else pl4
  let new_ss := List.zipWith (· + ·) ((pl5.strategy_sum infostate).getD [])
    (cur_policy.map (fun x => reach_probs.getD ap 0 * x))
  { pl5 with strategy_sum := setEntry pl5.strategy_sum infostate new_ss }

/-- The body of a non-terminal CFR node (lines 115-166 of cfr.py), with the
recursive call abstracted as `rec`: read `cur_policy`, visit the children,
compute node utilities and the discounted regrets, and apply the active
player's updates. -/
def cfrStep (g : GameSpec)
    (rec : List Nat → List ℚ → CFRState → List ℚ × CFRState)
    (history : List Nat) (reach_probs : List ℚ) (st : CFRState) :
    List ℚ × CFRState :=
  let ap := g.get_active_player history
  let infostate := g.get_infostate history
  let cur_policy := cfrCurPolicy g history st
  let children := cfrChildren g.n_actions rec history reach_probs ap cur_policy
    (cfrInitState g history st)
  let node_utils := nodeUtils g.n_players g.n_actions cur_policy children.1
  let regrets := regretsVec g.n_actions children.1 (node_utils.getD ap 0)
    (counterfactualDiscount reach_probs ap) ap
  (node_utils, fun p =>
    if p = ap then
      cfrUpdatedPlayer g infostate reach_probs ap cur_policy regrets (children.2 ap)
    else children.2 p)

/-- Embeds `counterfactualRegretMinimizerTrainer.cfr`
(src/imperfecto/algos/cfr.py, lines 97-166): at a terminal history return
`get_payoffs(history)` untouched, otherwise run the non-terminal body with
the recursion one fuel lower. -/
def cfr (g : GameSpec) : Nat → List Nat → List ℚ → CFRState → List ℚ × CFRState
  | 0 => fun _ _ st => ([], st)
  | fuel + 1 => fun history reach_probs st =>
    if g.is_terminal history then (g.get_payoffs history, st)
    else cfrStep g (cfr g fuel) history reach_probs st

/-- The counterfactual-value matrix and post-children state of one
non-terminal node of `cfr` at fuel `fuel + 1`. -/
def cfrChildrenAt (g : GameSpec) (fuel : Nat) (history : List Nat)
    (reach_probs : List ℚ) (st : CFRState) : (Nat → List ℚ) × CFRState :=
  cfrChildren g.n_actions (cfr g fuel) history reach_probs
    (g.get_active_player history) (cfrCurPolicy g history st)
    (cfrInitState g history st)

lemma cfr_succ_of_nonterminal (g : GameSpec) (fuel : Nat) (history : List Nat)
    (reach_probs : List ℚ) (st : CFRState) (hnt : g.is_terminal history = false) :
    cfr g (fuel + 1) history reach_probs st =
      cfrStep g (cfr g fuel) history reach_probs st := by
  simp [cfr, hnt]

lemma cfrStep_snd_ap (g : GameSpec)
    (rec : List Nat → List ℚ → CFRState → List ℚ × CFRState)
    (history : List Nat) (reach_probs : List ℚ) (st : CFRState) :
    (cfrStep g rec history reach_probs st).2 (g.get_active_player history) =
      cfrUpdatedPlayer g (g.get_infostate history) reach_probs
        (g.get_active_player history) (cfrCurPolicy g history st)
        (regretsVec g.n_actions
          (cfrChildren g.n_actions rec history reach_probs (g.get_active_player history)
            (cfrCurPolicy g history st) (cfrInitState g history st)).1
          ((nodeUtils g.n_players g.n_actions (cfrCurPolicy g history st)
            (cfrChildren g.n_actions rec history reach_probs (g.get_active_player history)
              (cfrCurPolicy g history st) (cfrInitState g history st)).1).getD
            (g.get_active_player history) 0)
          (counterfactualDiscount reach_probs (g.get_active_player history))
          (g.get_active_player history))
        ((cfrChildren g.n_actions rec history reach_probs (g.get_active_player history)
          (cfrCurPolicy g history st) (cfrInitState g history st)).2
          (g.get_active_player history)) := by
  simp [cfrStep]

lemma cfrUpdatedPlayer_cum_regrets (g : GameSpec) (infostate : String)
    (reach_probs : List ℚ) (ap : Nat) (cur_policy regrets : List ℚ) (pl2 : CFRPlayer) :
    (cfrUpdatedPlayer g infostate reach_probs ap cur_policy regrets pl2).cum_regrets =
      setEntry pl2.cum_regrets infostate
        (List.zipWith (· + ·) ((pl2.cum_regrets infostate).getD []) regrets) := by
  simp [cfrUpdatedPlayer, apply_ite CFRPlayer.cum_regrets]

lemma cfrUpdatedPlayer_strategy (g : GameSpec) (infostate : String)
    (reach_probs : List ℚ) (ap : Nat) (cur_policy regrets : List ℚ) (pl2 : CFRPlayer) :
    (cfrUpdatedPlayer g infostate reach_probs ap cur_policy regrets pl2).strategy =
      setEntry pl2.strategy infostate
        (regret_matching_strategy
          (List.zipWith (· + ·) ((pl2.cum_regrets infostate).getD []) regrets)) := by
  simp [cfrUpdatedPlayer, apply_ite CFRPlayer.strategy]

lemma cfrUpdatedPlayer_strategy_sum (g : GameSpec) (infostate : String)
    (reach_probs : List ℚ) (ap : Nat) (cur_policy regrets : List ℚ) (pl2 : CFRPlayer) :
    (cfrUpdatedPlayer g infostate reach_probs ap cur_policy regrets
        pl2).strategy_sum infostate =
      some (List.zipWith (· + ·)
        ((pl2.strategy_sum infostate).getD (List.replicate g.n_actions 0))
        (cur_policy.map (fun x => reach_probs.getD ap 0 * x))) := by
  cases h : pl2.strategy_sum infostate with
  | none => simp [cfrUpdatedPlayer, h, setEntry]
  | some v => simp [cfrUpdatedPlayer, h, setEntry]

/-- C6: at a terminal history, `cfr(history, reach_probs)` returns exactly
`get_payoffs(history)` and leaves the joint player state — every player's
`cum_regrets`, `strategy_sum` and `strategy` tables — completely unchanged. -/
theorem cfr_terminal_frame (g : GameSpec) (fuel : Nat) (history : List Nat)
    (reach_probs : List ℚ) (st : CFRState) (ht : g.is_terminal history = true) :
    cfr g (fuel + 1) history reach_probs st = (g.get_payoffs history, st) := by
  simp [cfr, ht]

/-- A concrete one-player game instantiating the CFR theorems: one decision
with two actions at the empty history, terminal after one action, payoff
`[1]` for action 0 and `[0]` for action 1. -/
def oneShotGame : GameSpec where
  n_players := 1
  n_actions := 2
  is_terminal := fun h => h.length == 1
  get_payoffs := fun h => if h.headD 0 = 0 then [1] else [0]
  get_active_player := fun _ => 0
  get_infostate := fun _ => "P0"

/-- The state of freshly constructed `CounterFactualRegretMinimizerPlayer`s:
all three per-infostate dictionaries empty. -/
def emptyCFRState : CFRState :=
  fun _ => ⟨fun _ => none, fun _ => none, fun _ => none⟩

/-- C6 witness: the terminal history `[0]` of the one-shot game. -/
theorem cfr_terminal_frame_witness :
    cfr oneShotGame 1 [0] [1] emptyCFRState =
      (oneShotGame.get_payoffs [0], emptyCFRState) :=
  cfr_terminal_frame oneShotGame 0 [0] [1] emptyCFRState (by decide)

lemma prod_take_drop_eq_eraseIdx (l : List ℚ) (i : Nat) :
    (l.take i).prod * (l.drop (i + 1)).prod = (l.eraseIdx i).prod := by
  rw [List.eraseIdx_eq_take_drop_succ, List.prod_append]

/-- C1: at a non-terminal node, the vector accumulated into the active
player's `cum_regrets[infostate]` on top of its post-children value is
exactly `regretsVec`, whose entries are `(counterfactual_values[ap][a] -
node_utils[ap]) * discount`; `node_utils[ap]` is the dot product of
`cur_policy` with the active player's row of counterfactual values, and
the discount is the product of the reach probabilities of every player
except the active player. -/
theorem cfr_regret_update (g : GameSpec) (fuel : Nat) (history : List Nat)
    (reach_probs : List ℚ) (st : CFRState) (hnt : g.is_terminal history = false) :
    ((cfr g (fuel + 1) history reach_probs st).2 (g.get_active_player history)).cum_regrets
        (g.get_infostate history) =
      some (List.zipWith (· + ·)
        ((((cfrChildrenAt g fuel history reach_probs st).2
            (g.get_active_player history)).cum_regrets (g.get_infostate history)).getD [])
        (regretsVec g.n_actions (cfrChildrenAt g fuel history reach_probs st).1
          ((nodeUtils g.n_players g.n_actions (cfrCurPolicy g history st)
            (cfrChildrenAt g fuel history reach_probs st).1).getD
            (g.get_active_player history) 0)
          (counterfactualDiscount reach_probs (g.get_active_player history))
          (g.get_active_player history))) ∧
    (∀ a, a < g.n_actions →
      (regretsVec g.n_actions (cfrChildrenAt g fuel history reach_probs st).1
          ((nodeUtils g.n_players g.n_actions (cfrCurPolicy g history st)
            (cfrChildrenAt g fuel history reach_probs st).1).getD
            (g.get_active_player history) 0)
          (counterfactualDiscount reach_probs (g.get_active_player history))
          (g.get_active_player history)).getD a 0 =
        (((cfrChildrenAt g fuel history reach_probs st).1 a).getD
            (g.get_active_player history) 0 -
          (nodeUtils g.n_players g.n_actions (cfrCurPolicy g history st)
            (cfrChildrenAt g fuel history reach_probs st).1).getD
            (g.get_active_player history) 0) *
          counterfactualDiscount reach_probs (g.get_active_player history)) ∧
    (g.get_active_player history < g.n_players →
      (nodeUtils g.n_players g.n_actions (cfrCurPolicy g history st)
          (cfrChildrenAt g fuel history reach_probs st).1).getD
          (g.get_active_player history) 0 =
        ((List.range g.n_actions).map (fun a =>
          (cfrCurPolicy g history st).getD a 0 *
            ((cfrChildrenAt g fuel history reach_probs st).1 a).getD
              (g.get_active_player history) 0)).sum) ∧
    counterfactualDiscount reach_probs (g.get_active_player history) =
      (reach_probs.eraseIdx (g.get_active_player history)).prod := by
  refine ⟨?_, ?_, ?_, ?_⟩
  · rw [cfr_succ_of_nonterminal g fuel history reach_probs st hnt, cfrStep_snd_ap,
      cfrUpdatedPlayer_cum_regrets]
    simp [setEntry, cfrChildrenAt]
  · intro a ha
    exact getD_map_range _ g.n_actions a ha
  · intro hap
    exact getD_map_range _ g.n_players (g.get_active_player history) hap
  · exact (prod_take_drop_eq_eraseIdx reach_probs (g.get_active_player history)).symm ▸ rfl

/-- C1 witness: the root of the one-shot game with fresh players and reach
probability 1. -/
theorem cfr_regret_update_witness :
    ((cfr oneShotGame 2 [] [1] emptyCFRState).2
        (oneShotGame.get_active_player [])).cum_regrets (oneShotGame.get_infostate []) =
      some (List.zipWith (· + ·)
        ((((cfrChildrenAt oneShotGame 1 [] [1] emptyCFRState).2
            (oneShotGame.get_active_player [])).cum_regrets
            (oneShotGame.get_infostate [])).getD [])
        (regretsVec oneShotGame.n_actions
          (cfrChildrenAt oneShotGame 1 [] [1] emptyCFRState).1
          ((nodeUtils oneShotGame.n_players oneShotGame.n_actions
            (cfrCurPolicy oneShotGame [] emptyCFRState)
            (cfrChildrenAt oneShotGame 1 [] [1] emptyCFRState).1).getD
            (oneShotGame.get_active_player []) 0)
          (counterfactualDiscount [1] (oneShotGame.get_active_player []))
          (oneShotGame.get_active_player []))) :=
  (cfr_regret_update oneShotGame 1 [] [1] emptyCFRState (by decide)).1

/-- C2: at a non-terminal node, the active player's
`strategy_sum[infostate]` is incremented by exactly
`reach_probs[active_player] * cur_policy` on top of its (lazily
zero-initialized) post-children value — weighted by the active player's
own reach probability, not by the counterfactual discount used for the
regret update. -/
theorem cfr_strategy_sum_update (g : GameSpec) (fuel : Nat) (history : List Nat)
    (reach_probs : List ℚ) (st : CFRState) (hnt : g.is_terminal history = false) :
    ((cfr g (fuel + 1) history reach_probs st).2
        (g.get_active_player history)).strategy_sum (g.get_infostate history) =
      some (List.zipWith (· + ·)
        ((((cfrChildrenAt g fuel history reach_probs st).2
            (g.get_active_player history)).strategy_sum (g.get_infostate history)).getD
          (List.replicate g.n_actions 0))
        ((cfrCurPolicy g history st).map
          (fun x => reach_probs.getD (g.get_active_player history) 0 * x))) := by
  rw [cfr_succ_of_nonterminal g fuel history reach_probs st hnt, cfrStep_snd_ap,
    cfrUpdatedPlayer_strategy_sum]
  rfl

/-- C2 witness: the root of the one-shot game with fresh players and reach
probability 1. -/
theorem cfr_strategy_sum_update_witness :
    ((cfr oneShotGame 2 [] [1] emptyCFRState).2
        (oneShotGame.get_active_player [])).strategy_sum (oneShotGame.get_infostate []) =
      some (List.zipWith (· + ·)
        ((((cfrChildrenAt oneShotGame 1 [] [1] emptyCFRState).2
            (oneShotGame.get_active_player [])).strategy_sum
            (oneShotGame.get_infostate [])).getD
          (List.replicate oneShotGame.n_actions 0))
        ((cfrCurPolicy oneShotGame [] emptyCFRState).map
          (fun x => ([1] : List ℚ).getD (oneShotGame.get_active_player []) 0 * x))) :=
  cfr_strategy_sum_update oneShotGame 1 [] [1] emptyCFRState (by decide)

/-- C3 (amended): `cur_policy` is read from the active player's stored
strategy table: on the first visit to an infostate it is the lazily
initialized ZERO vector, not `regret_matching_strategy` of the zero
cumulative regrets (which would be uniform); on a later visit it is the
stored distribution, and the end of every non-terminal visit re-syncs the
stored strategy to `regret_matching_strategy` of the updated cumulative
regrets, so on every visit after the first the policy used does equal
`regret_matching_strategy` of the regrets as of the previous visit. -/
theorem cfr_policy_sync (g : GameSpec) (fuel : Nat) (history : List Nat)
    (reach_probs : List ℚ) (st : CFRState) (hnt : g.is_terminal history = false) :
    ((st (g.get_active_player history)).strategy (g.get_infostate history) = none →
      cfrCurPolicy g history st = List.replicate g.n_actions 0) ∧
    (∀ dist,
      (st (g.get_active_player history)).strategy (g.get_infostate history) = some dist →
      cfrCurPolicy g history st = dist) ∧
    ((cfr g (fuel + 1) history reach_probs st).2
        (g.get_active_player history)).strategy (g.get_infostate history) =
      some (regret_matching_strategy
        ((((cfr g (fuel + 1) history reach_probs st).2
            (g.get_active_player history)).cum_regrets (g.get_infostate history)).getD [])) := by
  refine ⟨?_, ?_, ?_⟩
  · intro h
    simp [cfrCurPolicy, lazyInit, apply_ite CFRPlayer.strategy, h, setEntry]
  · intro dist h
    simp [cfrCurPolicy, lazyInit, apply_ite CFRPlayer.strategy, h]
  · rw [cfr_succ_of_nonterminal g fuel history reach_probs st hnt, cfrStep_snd_ap,
      cfrUpdatedPlayer_strategy, cfrUpdatedPlayer_cum_regrets]
    simp [setEntry]

/-- C3 witness: the fresh root of the one-shot game — the first-visit
policy is the zero vector, and after the visit the stored strategy equals
`regret_matching_strategy` of the stored cumulative regrets. -/
theorem cfr_policy_sync_witness :
    cfrCurPolicy oneShotGame [] emptyCFRState =
      List.replicate oneShotGame.n_actions 0 ∧
    ((cfr oneShotGame 2 [] [1] emptyCFRState).2
        (oneShotGame.get_active_player [])).strategy (oneShotGame.get_infostate []) =
      some (regret_matching_strategy
        ((((cfr oneShotGame 2 [] [1] emptyCFRState).2
            (oneShotGame.get_active_player [])).cum_regrets
            (oneShotGame.get_infostate [])).getD [])) :=
  ⟨(cfr_policy_sync oneShotGame 1 [] [1] emptyCFRState (by decide)).1 rfl,
   (cfr_policy_sync oneShotGame 1 [] [1] emptyCFRState (by decide)).2.2⟩

/-- C3 counterexample: on the FIRST visit to an infostate the policy used
is not `regret_matching_strategy` of the current (just zero-initialized)
cumulative regrets: at the fresh root of the one-shot game `cur_policy` is
`[0, 0]` while `regret_matching_strategy` of the zero regret vector is the
uniform `[1/2, 1/2]`; consequently the root call returns node utility
`[0]` (instead of the expected value `1/2` of the uniform policy) and
accumulates `[0, 0]` into `strategy_sum` (instead of `[1/2, 1/2]`). -/
theorem cfr_first_visit_policy_counterexample :
    cfrCurPolicy oneShotGame [] emptyCFRState = [0, 0] ∧
    regret_matching_strategy
        (((lazyInit oneShotGame.n_actions "P0"
            (emptyCFRState 0)).cum_regrets "P0").getD []) = [1/2, 1/2] ∧
    cfrCurPolicy oneShotGame [] emptyCFRState ≠
      regret_matching_strategy
        (((lazyInit oneShotGame.n_actions "P0"
            (emptyCFRState 0)).cum_regrets "P0").getD []) ∧
    (cfr oneShotGame 2 [] [1] emptyCFRState).1 = [0] ∧
    ((cfr oneShotGame 2 [] [1] emptyCFRState).2 0).strategy_sum "P0" = some [0, 0] := by
  have h1 : cfrCurPolicy oneShotGame [] emptyCFRState = [0, 0] := by
    norm_num [cfrCurPolicy, lazyInit, setEntry, emptyCFRState, oneShotGame,
      List.replicate]
  have h2 : regret_matching_strategy
      (((lazyInit oneShotGame.n_actions "P0"
          (emptyCFRState 0)).cum_regrets "P0").getD []) = [1/2, 1/2] := by
    norm_num [lazyInit, setEntry, emptyCFRState, oneShotGame, List.replicate,
      regret_matching_strategy]
  refine ⟨h1, h2, ?_, ?_, ?_⟩
  · rw [h1, h2]
    norm_num
  · norm_num [cfr, cfrStep, cfrChildren, cfrCurPolicy, cfrInitState, lazyInit,
      setEntry, emptyCFRState, oneShotGame, nodeUtils, counterfactualDiscount,
      regretsVec, cfrUpdatedPlayer, regret_matching_strategy, List.range_succ,
      List.replicate]
  · norm_num [cfr, cfrStep, cfrChildren, cfrCurPolicy, cfrInitState, lazyInit,
      setEntry, emptyCFRState, oneShotGame, nodeUtils, counterfactualDiscount,
      regretsVec, cfrUpdatedPlayer, regret_matching_strategy, List.range_succ,
      List.replicate]

end Imperfecto
